import Mathlib

/-!
Verification of the QB45 binary symbol extractor
(`src/tools/qb45_decoder/qb45_symbols.py`).

The Python program is shallowly embedded: a byte buffer is a `List Nat`
(each element being a byte value 0..255, though none of the definitions
depend on the upper bound), machine strings are Lean `String`s, and the
two scan loops of `extract_symbols` become fuel-indexed tail recursions.
The fuel `data.length + 1` is sufficient because the scan position grows
strictly on every iteration and each loop stops once the position leaves
the buffer prefix it walks.
-/

/-- Byte printability test used throughout the scanner: `32 <= b < 127`. -/
def printableByte (b : Nat) : Bool :=
  decide (32 ≤ b ∧ b < 127)

/-- ASCII alphabetic characters, the class `[A-Za-z]`. -/
def isAsciiAlpha (c : Char) : Bool :=
  ('A' ≤ c && c ≤ 'Z') || ('a' ≤ c && c ≤ 'z')

/-- First character of the identifier patterns: class `[A-Za-z_]`. -/
def isIdentFirst (c : Char) : Bool :=
  isAsciiAlpha c || c == '_'

/-- Continuation class of the variable pattern: `[A-Za-z0-9_$.%&#!]`. -/
def isVarRest (c : Char) : Bool :=
  isIdentFirst c || ('0' ≤ c && c ≤ '9') || c == '$' || c == '.' ||
    c == '%' || c == '&' || c == '#' || c == '!'

/-- Continuation class of the stricter sub pattern: `[A-Za-z0-9_]`. -/
def isSubRest (c : Char) : Bool :=
  isIdentFirst c || ('0' ≤ c && c ≤ '9')

/-- Core of an anchored match `^FR*$`: nonempty, first char in `F`,
remaining chars in `R`. -/
def identCore (first rest : Char → Bool) : List Char → Bool
  | [] => false
  | c :: cs => first c && cs.all rest

/-- Python `re.match(r'^FR*$', s)`: the `$` anchor also matches just
before a single trailing newline, so a match succeeds on `t ++ "\n"`
whenever it succeeds on `t`. -/
def pyAnchoredMatch (first rest : Char → Bool) (l : List Char) : Bool :=
  identCore first rest l ||
    (match l.getLast? with
     | some c => c == '\n' && identCore first rest l.dropLast
     | none => false)

/-- `re.match(r'^[A-Za-z_][A-Za-z0-9_$.%&#!]*$', name)` of the variable
classification branch. -/
def matchVarIdent (ss : String) : Bool :=
  pyAnchoredMatch isIdentFirst isVarRest ss.data

/-- `re.match(r'^[A-Za-z_][A-Za-z0-9_]*$', name)` of the 0x40 sub-pass. -/
def matchSubIdent (ss : String) : Bool :=
  pyAnchoredMatch isIdentFirst isSubRest ss.data

/-- `bytes.decode('ascii')` for payloads already checked to lie in
[0x20, 0x7F): each byte is its own code point.  (The surrounding
`try/except` in the source can never fire on such payloads.) -/
def decodeAscii (bs : List Nat) : String :=
  String.mk (bs.map Char.ofNat)

/-- `bytes.decode('ascii', errors='replace')`: bytes ≥ 0x80 become the
U+FFFD replacement character instead of failing. -/
def decodeReplace (bs : List Nat) : String :=
  String.mk (bs.map fun b => if b < 128 then Char.ofNat b else Char.ofNat 0xFFFD)

/-- `re.search(r'[A-Za-z]{2,}', s)`: two consecutive alphabetic chars. -/
def hasAlphaRun : List Char → Bool
  | a :: b :: rest => (isAsciiAlpha a && isAsciiAlpha b) || hasAlphaRun (b :: rest)
  | _ => false

/-- `re.search(r'[\x00-\x1f]', s)`: any control character. -/
def hasControl (ss : String) : Bool :=
  ss.data.any fun c => c.toNat ≤ 0x1f

/-- The five result lists of `extract_symbols` (`symbols` dict).  The
field `vars` embeds `symbols['variables']`; Lean reserves the name
`variables`. -/
structure Symbols where
  subs : List String
  functions : List String
  types : List String
  vars : List String
  strings : List String
deriving Repr, DecidableEq

/-- The freshly initialised `symbols` dict: five empty lists. -/
def emptySymbols : Symbols := ⟨[], [], [], [], []⟩

/-- The payload slice `data[pos + 2 : pos + 2 + length]` of a candidate
name record, with `length = data[pos + 1]`. -/
def nameBytesAt (data : List Nat) (pos : Nat) : List Nat :=
  (data.drop (pos + 2)).take (data.getD (pos + 1) 0)

/-- Acceptance test for a name record at `pos`: the source's
`length > 0 and length < 64 and pos + 2 + length <= len(data)` followed
by `all(32 <= b < 127 for b in name_bytes)`. -/
def nameRecordOK (data : List Nat) (pos : Nat) : Bool :=
  decide (0 < data.getD (pos + 1) 0 ∧ data.getD (pos + 1) 0 < 64 ∧
    pos + 2 + data.getD (pos + 1) 0 ≤ data.length) &&
  (nameBytesAt data pos).all printableByte

/-- The flag-based classification (source lines 44–58): 0x40 and 0x04 go
to `subs`, 0x08 to `types`, anything else to `variables` when longer
than one character and matching the identifier pattern; each append is
guarded by a membership test. -/
def classifyName (flags : Nat) (name : String) (s : Symbols) : Symbols :=
  if flags = 0x40 then
    (if name ∉ s.subs then { s with subs := s.subs ++ [name] } else s)
  else if flags = 0x08 then
    (if name ∉ s.types then { s with types := s.types ++ [name] } else s)
  else if flags = 0x04 then
    (if name ∉ s.subs then { s with subs := s.subs ++ [name] } else s)
  else
    (if name ∉ s.vars ∧ 1 < name.length ∧ matchVarIdent name then
      { s with vars := s.vars ++ [name] }
    else s)

/-- One iteration of the name-record loop at offset `pos`: the generic
record check, then the 0x40-specific sub-pass, then the one-byte
fallback advance.  In the sub-pass the source advances by the record
size whenever the record is printable, even when the stricter pattern
fails to match. -/
def nameStep (data : List Nat) (pos : Nat) (s : Symbols) : Nat × Symbols :=
  if nameRecordOK data pos then
    (pos + 2 + data.getD (pos + 1) 0,
      classifyName (data.getD pos 0) (decodeAscii (nameBytesAt data pos)) s)
  else if (data.getD pos 0 == 0x40) && decide (pos + 1 < data.length) &&
      nameRecordOK data pos then
    (pos + 2 + data.getD (pos + 1) 0,
      if decodeAscii (nameBytesAt data pos) ∉ s.subs ∧
          matchSubIdent (decodeAscii (nameBytesAt data pos)) then
        { s with subs := s.subs ++ [decodeAscii (nameBytesAt data pos)] }
      else s)
  else
    (pos + 1, s)

/-- The name-record loop `while pos < len(data) - 4`, fuel-indexed. -/
def scanNamesAux (data : List Nat) : Nat → Nat → Symbols → Symbols
  | 0, _, s => s
  | fuel + 1, pos, s =>
    if pos < data.length - 4 then
      scanNamesAux data fuel (nameStep data pos s).1 (nameStep data pos s).2
    else s

/-- One iteration of the string-literal loop at offset `pos` (source
lines 85–99).  The position always advances by one, so the step only
transforms the symbol sets.  The source compares
`printable_count > length * 0.9` in IEEE double arithmetic; for every
length in the accepted range (5, 200) the double comparison coincides
exactly with the rational comparison `10 * printable_count > 9 * length`
(the product `length * 0.9` rounds to the exact multiple of 0.1, whose
only integral cases are multiples of ten, where it rounds to the integer
itself), which is how it is rendered here. -/
def stringStep (data : List Nat) (pos : Nat) (s : Symbols) : Symbols :=
  if 5 < data.getD pos 0 ∧ data.getD pos 0 < 200 ∧
      pos + 1 + data.getD pos 0 ≤ data.length then
    if 9 * data.getD pos 0 <
        10 * (((data.drop (pos + 1)).take (data.getD pos 0)).filter printableByte).length then
      if hasAlphaRun (decodeReplace ((data.drop (pos + 1)).take (data.getD pos 0))).data ∧
          decodeReplace ((data.drop (pos + 1)).take (data.getD pos 0)) ∉ s.strings then
        if ¬ hasControl (decodeReplace ((data.drop (pos + 1)).take (data.getD pos 0))) then
          { s with strings :=
              s.strings ++ [decodeReplace ((data.drop (pos + 1)).take (data.getD pos 0))] }
        else s
      else s
    else s
  else s

/-- The string-literal loop `while pos < len(data) - 5`, fuel-indexed. -/
def scanStringsAux (data : List Nat) : Nat → Nat → Symbols → Symbols
  | 0, _, s => s
  | fuel + 1, pos, s =>
    if pos < data.length - 5 then
      scanStringsAux data fuel (pos + 1) (stringStep data pos s)
    else s

/-- `extract_symbols(data)`: the name-record pass followed by the
string-literal pass, both starting from the empty symbol sets. -/
def extract_symbols (data : List Nat) : Symbols :=
  scanStringsAux data (data.length + 1) 0
    (scanNamesAux data (data.length + 1) 0 emptySymbols)

/-- `analyze_file` after the file has been read: the magic-byte check
`len(data) < 2 or data[0] != 0xFC` yields the format error, otherwise
the extraction result. -/
def analyze_file (data : List Nat) : Option Symbols × Option String :=
  if data.length < 2 ∨ data.getD 0 0 ≠ 0xFC then
    (none, some "Not a QB45 binary format file")
  else
    (some (extract_symbols data), none)

example : (extract_symbols [0xFC, 0x40, 5, 72, 69, 76, 76, 79]).subs = ["HELLO"] := by decide
example : extract_symbols [0x00, 0x40, 1, 65, 0] = emptySymbols := by decide
example : (extract_symbols [0x00, 0x40, 1, 65, 0, 0]).subs = ["A"] := by decide
example : (extract_symbols [0x40, 3, 70, 79, 79, 0x40, 3, 70, 79, 79]).subs = ["FOO"] := by decide

/-! ## The reporter (`main`, source lines 129–165) -/

/-- Python's `s[:n]` on a string: the first `n` characters. -/
def strTake (ss : String) (n : Nat) : String :=
  String.mk (ss.data.take n)

/-- `sorted(l)` on strings: ascending lexicographic order on code
points, rendered as insertion sort over `≤`. -/
def sortS (l : List String) : List String :=
  List.insertionSort (· ≤ ·) l

/-- One indented name line `f"    {name}"`. -/
def fmtName (name : String) : String :=
  "    " ++ name

/-- One string-literal line `f'    "{s[:50]}{"..." if len(s) > 50 else ""}"'`. -/
def fmtStringLine (v : String) : String :=
  "    \"" ++ strTake v 50 ++ (if 50 < v.length then "..." else "") ++ "\""

/-- The `SUBs/FUNCTIONs` section: printed only when `subs` is nonempty,
header with the count, then the sorted names. -/
def subsBlock (s : Symbols) : List String :=
  if s.subs ≠ [] then
    ("  SUBs/FUNCTIONs (" ++ toString s.subs.length ++ "):") :: (sortS s.subs).map fmtName
  else []

/-- The `TYPEs` section. -/
def typesBlock (s : Symbols) : List String :=
  if s.types ≠ [] then
    ("  TYPEs (" ++ toString s.types.length ++ "):") :: (sortS s.types).map fmtName
  else []

/-- The `Variables` section: names longer than 3 characters, sorted,
first 30 shown, with an `... and N more` line past 30. -/
def varsBlock (s : Symbols) : List String :=
  if s.vars ≠ [] ∧ s.vars.filter (fun v => 3 < v.length) ≠ [] then
    ("  Variables (" ++ toString (s.vars.filter (fun v => 3 < v.length)).length ++ " shown):") ::
      ((sortS (s.vars.filter (fun v => 3 < v.length))).take 30).map fmtName ++
      (if 30 < (s.vars.filter (fun v => 3 < v.length)).length then
        ["    ... and " ++
          toString ((s.vars.filter (fun v => 3 < v.length)).length - 30) ++ " more"]
      else [])
  else []

/-- The `String literals (sample)` section: strings longer than 10
characters, first 10 of them in insertion order (no sort). -/
def stringsBlock (s : Symbols) : List String :=
  if s.strings ≠ [] ∧ (s.strings.filter (fun v => 10 < v.length)).take 10 ≠ [] then
    "  String literals (sample):" ::
      ((s.strings.filter (fun v => 10 < v.length)).take 10).map fmtStringLine
  else []

/-- Everything `main` prints for one successfully analysed file after
the header line: the four sections. -/
def reportSymbols (s : Symbols) : List String :=
  subsBlock s ++ typesBlock s ++ varsBlock s ++ stringsBlock s

/-- `os.path.basename` for the slash-separated paths the tool receives:
the part after the last `/`. -/
def basename (p : String) : String :=
  String.mk ((p.data.reverse.takeWhile (fun c => c ≠ '/')).reverse)

/-- State of a path in the file system as `main` can observe it:
absent (`os.path.exists` false), present but failing to open/read
(`open` raises), or present with contents. -/
inductive FileState where
  | missing
  | unreadable
  | content (data : List Nat)
deriving Repr, DecidableEq

/-- What a run of `main` over its file arguments produced: the standard
output lines, the standard error lines, and the uncaught exception, if
any, that aborted the batch (the source has no `try/except` around
`analyze_file`, so a failing `open` of an existing path ends the loop). -/
structure RunOut where
  out : List String
  errOut : List String
  exc : Option String
deriving Repr, DecidableEq

/-- The per-file loop of `main` (source lines 124–165): missing paths
get a standard-error line and are skipped; for present paths the header
is printed, then the file is read and analysed; a format error prints an
`  Error:` line and skips the trailing blank line; an unreadable path
raises after the header and aborts the remaining arguments. -/
def processFiles (fs : String → FileState) : List String → RunOut
  | [] => ⟨[], [], none⟩
  | p :: rest =>
    match fs p with
    | .missing =>
      ⟨(processFiles fs rest).out,
        ("File not found: " ++ p) :: (processFiles fs rest).errOut,
        (processFiles fs rest).exc⟩
    | .unreadable =>
      ⟨["=== " ++ basename p ++ " ==="], [], some ("unhandled OSError: " ++ p)⟩
    | .content data =>
      match analyze_file data with
      | (_, some e) =>
        ⟨("=== " ++ basename p ++ " ===") :: ("  Error: " ++ e) ::
            (processFiles fs rest).out,
          (processFiles fs rest).errOut, (processFiles fs rest).exc⟩
      | (symsOpt, none) =>
        ⟨("=== " ++ basename p ++ " ===") ::
            (reportSymbols (symsOpt.getD emptySymbols) ++ [""] ++ (processFiles fs rest).out),
          (processFiles fs rest).errOut, (processFiles fs rest).exc⟩

/-- Standard output a single path contributes when no path of the batch
is unreadable; used to state that the batch processes every argument
independently and in order. -/
def fileOut (fs : String → FileState) (p : String) : List String :=
  match fs p with
  | .missing => []
  | .unreadable => []
  | .content data =>
    match analyze_file data with
    | (_, some e) => [("=== " ++ basename p ++ " ==="), ("  Error: " ++ e)]
    | (symsOpt, none) =>
      ("=== " ++ basename p ++ " ===") :: (reportSymbols (symsOpt.getD emptySymbols) ++ [""])

/-- Standard-error line a single path contributes. -/
def fileErr (fs : String → FileState) (p : String) : Option String :=
  match fs p with
  | .missing => some ("File not found: " ++ p)
  | _ => none

/-! ## `extract_symbols` with the 0x40 sub-pass removed (claim C10) -/

/-- `nameStep` without the `@ prefix pattern` sub-pass (source lines
65–78 deleted): the generic record check, else the one-byte advance. -/
def nameStepNoAt (data : List Nat) (pos : Nat) (s : Symbols) : Nat × Symbols :=
  if nameRecordOK data pos then
    (pos + 2 + data.getD (pos + 1) 0,
      classifyName (data.getD pos 0) (decodeAscii (nameBytesAt data pos)) s)
  else
    (pos + 1, s)

/-- The name-record loop built on `nameStepNoAt`. -/
def scanNamesNoAtAux (data : List Nat) : Nat → Nat → Symbols → Symbols
  | 0, _, s => s
  | fuel + 1, pos, s =>
    if pos < data.length - 4 then
      scanNamesNoAtAux data fuel (nameStepNoAt data pos s).1 (nameStepNoAt data pos s).2
    else s

/-- `extract_symbols` with the 0x40 sub-pass removed. -/
def extract_symbols_noat (data : List Nat) : Symbols :=
  scanStringsAux data (data.length + 1) 0
    (scanNamesNoAtAux data (data.length + 1) 0 emptySymbols)

example : processFiles (fun _ => .content [0xFC, 0x40, 5, 72, 69, 76, 76, 79]) ["MINIMAL.BAS"] =
    ⟨["=== MINIMAL.BAS ===", "  SUBs/FUNCTIONs (1):", "    HELLO", ""], [], none⟩ := by decide

/-! ## Helper lemmas -/

/-- The 0x40 sub-pass can only fire when `nameRecordOK` holds, but it is
only reached when `nameRecordOK` failed, so the two step functions agree
everywhere. -/
theorem nameStep_eq_noAt (data : List Nat) (pos : Nat) (s : Symbols) :
    nameStep data pos s = nameStepNoAt data pos s := by
  unfold nameStep nameStepNoAt
  by_cases h : nameRecordOK data pos
  · simp [h]
  · simp [h]

theorem scanNamesAux_eq_noAt (data : List Nat) :
    ∀ fuel pos s, scanNamesAux data fuel pos s = scanNamesNoAtAux data fuel pos s
  | 0, _, _ => rfl
  | fuel + 1, pos, s => by
    unfold scanNamesAux scanNamesNoAtAux
    rw [nameStep_eq_noAt]
    by_cases h : pos < data.length - 4
    · rw [if_pos h, if_pos h]
      exact scanNamesAux_eq_noAt data fuel _ _
    · rw [if_neg h, if_neg h]

/-- All five symbol lists are duplicate-free. -/
def SymbolsNodup (s : Symbols) : Prop :=
  s.subs.Nodup ∧ s.functions.Nodup ∧ s.types.Nodup ∧ s.vars.Nodup ∧ s.strings.Nodup

theorem nodup_snoc {l : List String} {x : String} (hl : l.Nodup) (hx : x ∉ l) :
    (l ++ [x]).Nodup := by
  simp [List.nodup_append, hl, hx]

theorem classifyName_nodup (flags : Nat) (name : String) (s : Symbols)
    (h : SymbolsNodup s) : SymbolsNodup (classifyName flags name s) := by
  obtain ⟨h1, h2, h3, h4, h5⟩ := h
  unfold classifyName
  split_ifs with hf1 hm1 hf2 hm2 hf3 hm3 hv <;>
  · first
    | exact ⟨nodup_snoc h1 (by tauto), h2, h3, h4, h5⟩
    | exact ⟨h1, h2, nodup_snoc h3 (by tauto), h4, h5⟩
    | exact ⟨h1, h2, h3, nodup_snoc h4 (by tauto), h5⟩
    | exact ⟨h1, h2, h3, h4, h5⟩

theorem nameStep_nodup (data : List Nat) (pos : Nat) (s : Symbols)
    (h : SymbolsNodup s) : SymbolsNodup (nameStep data pos s).2 := by
  obtain ⟨h1, h2, h3, h4, h5⟩ := h
  unfold nameStep
  split_ifs with ha hb hc
  · exact classifyName_nodup _ _ _ ⟨h1, h2, h3, h4, h5⟩
  · exact ⟨nodup_snoc h1 (by tauto), h2, h3, h4, h5⟩
  · exact ⟨h1, h2, h3, h4, h5⟩
  · exact ⟨h1, h2, h3, h4, h5⟩

theorem stringStep_nodup (data : List Nat) (pos : Nat) (s : Symbols)
    (h : SymbolsNodup s) : SymbolsNodup (stringStep data pos s) := by
  obtain ⟨h1, h2, h3, h4, h5⟩ := h
  unfold stringStep
  split_ifs with ha hb hc hd <;>
    first
    | exact ⟨h1, h2, h3, h4, nodup_snoc h5 (by tauto)⟩
    | exact ⟨h1, h2, h3, h4, h5⟩

theorem scanNamesAux_nodup (data : List Nat) :
    ∀ fuel pos s, SymbolsNodup s → SymbolsNodup (scanNamesAux data fuel pos s)
  | 0, _, _, h => h
  | fuel + 1, pos, s, h => by
    unfold scanNamesAux
    split
    · exact scanNamesAux_nodup data fuel _ _ (nameStep_nodup data pos s h)
    · exact h

theorem scanStringsAux_nodup (data : List Nat) :
    ∀ fuel pos s, SymbolsNodup s → SymbolsNodup (scanStringsAux data fuel pos s)
  | 0, _, _, h => h
  | fuel + 1, pos, s, h => by
    unfold scanStringsAux
    split
    · exact scanStringsAux_nodup data fuel _ _ (stringStep_nodup data pos s h)
    · exact h

/-! ## The claims -/

/-- C10: the 0x40-specific sub-pass (source lines 65–78) never fires:
its conditions repeat exactly the record checks the generic pass just
rejected at the same offset, so removing it leaves `extract_symbols`
unchanged on every input. -/
theorem thm_C10_atpass_equiv (data : List Nat) :
    extract_symbols data = extract_symbols_noat data := by
  unfold extract_symbols extract_symbols_noat
  rw [scanNamesAux_eq_noAt]

/-- C5: when no name-record candidate is accepted at an offset (the
record check `nameRecordOK` fails, e.g. because a payload byte is not
printable), the scan advances by exactly one byte and the symbol sets
are unchanged — it does not skip the full record length. -/
theorem thm_C5_reject_advance_one (data : List Nat) (pos : Nat) (s : Symbols)
    (h : nameRecordOK data pos = false) :
    nameStep data pos s = (pos + 1, s) := by
  unfold nameStep
  simp [h]

theorem thm_C5_witness :
    nameRecordOK [0x40, 3, 0, 65, 65] 0 = false ∧
      nameStep [0x40, 3, 0, 65, 65] 0 emptySymbols = (1, emptySymbols) :=
  ⟨by decide, thm_C5_reject_advance_one [0x40, 3, 0, 65, 65] 0 emptySymbols (by decide)⟩

/-- C6 (counterexample): at offset `length − 4 = 1` of the buffer
`[0x00, 0x40, 0x01, 'A', 0x00]` sits a valid name record (flag 0x40,
length 1, printable payload, record fitting in the buffer), yet the
scanner stops before that offset and extracts nothing — refuting the
claim that every offset up to `length − 4` inclusive is examined. -/
theorem thm_C6_counterexample :
    nameRecordOK [0x00, 0x40, 1, 65, 0] 1 = true ∧
      [0x00, 0x40, 1, 65, 0].getD 1 0 = 0x40 ∧
      [0x00, 0x40, 1, 65, 0].length - 4 = 1 ∧
      extract_symbols [0x00, 0x40, 1, 65, 0] = emptySymbols := by
  decide

/-- C6 (amended): the name-record loop examines offsets strictly below
`buffer length − 4`, i.e. from 0 to `length − 5` inclusive: from any
position at or past `length − 4` it returns its symbols unchanged for
every fuel, while the same valid record placed with its flag byte at
offset `length − 5` is scanned and its name extracted. -/
theorem thm_C6_scan_bound (data : List Nat) (fuel pos : Nat) (s : Symbols)
    (h : data.length - 4 ≤ pos) :
    scanNamesAux data fuel pos s = s ∧
      (extract_symbols [0x00, 0x40, 1, 65, 0, 0]).subs = ["A"] := by
  constructor
  · cases fuel with
    | zero => rfl
    | succ n =>
      unfold scanNamesAux
      rw [if_neg (Nat.not_lt.mpr h)]
  · decide

theorem thm_C6_witness :
    [0x00, 0x40, 1, 65, 0].length - 4 ≤ 1 ∧
      scanNamesAux [0x00, 0x40, 1, 65, 0] 6 1 emptySymbols = emptySymbols :=
  ⟨by decide, (thm_C6_scan_bound [0x00, 0x40, 1, 65, 0] 6 1 emptySymbols (by decide)).1⟩

/-- C3: `analyze_file` reports the format error and yields no symbols
exactly on buffers shorter than 2 bytes or not starting with the 0xFC
magic byte; on all other buffers it returns the extraction result and
no error. -/
theorem thm_C3_loader (data : List Nat) :
    (data.length < 2 ∨ data.getD 0 0 ≠ 0xFC →
      analyze_file data = (none, some "Not a QB45 binary format file")) ∧
    (2 ≤ data.length ∧ data.getD 0 0 = 0xFC →
      analyze_file data = (some (extract_symbols data), none)) := by
  constructor
  · intro h
    unfold analyze_file
    rw [if_pos h]
  · intro h
    unfold analyze_file
    rw [if_neg (by push_neg; exact ⟨h.1, h.2⟩)]

theorem thm_C3_witness :
    analyze_file [0x00, 0x01, 0x02] = (none, some "Not a QB45 binary format file") ∧
      analyze_file [0xFC, 0x00] = (some (extract_symbols [0xFC, 0x00]), none) :=
  ⟨(thm_C3_loader [0x00, 0x01, 0x02]).1 (by decide),
    (thm_C3_loader [0xFC, 0x00]).2 (by decide)⟩

/-- C2: on a file holding exactly the 8 bytes
`FC 40 05 48 45 4C 4C 4F`, the extractor prints the header, a
`SUBs/FUNCTIONs (1):` section containing `HELLO`, and the trailing blank
line — and nothing else, so no types, variables or strings sections
appear. -/
theorem thm_C2_end_to_end :
    processFiles (fun _ => FileState.content [0xFC, 0x40, 5, 72, 69, 76, 76, 79])
        ["MINIMAL.BAS"] =
      ⟨["=== MINIMAL.BAS ===", "  SUBs/FUNCTIONs (1):", "    HELLO", ""], [], none⟩ ∧
    "    HELLO" ∈ (processFiles (fun _ => FileState.content [0xFC, 0x40, 5, 72, 69, 76, 76, 79])
        ["MINIMAL.BAS"]).out := by
  decide

/-- C4: on every input buffer each of the five result lists of
`extract_symbols` is free of duplicates (membership is case-sensitive
exact string equality, so the guard `name not in …` keeps first
occurrences only); and on a buffer containing the record
`40 03 46 4F 4F` twice, `FOO` lands in `subs` exactly once. -/
theorem thm_C4_nodup (data : List Nat) :
    (extract_symbols data).subs.Nodup ∧ (extract_symbols data).functions.Nodup ∧
    (extract_symbols data).types.Nodup ∧ (extract_symbols data).vars.Nodup ∧
    (extract_symbols data).strings.Nodup ∧
    (extract_symbols [0x40, 3, 70, 79, 79, 0x40, 3, 70, 79, 79]).subs = ["FOO"] := by
  have h : SymbolsNodup (extract_symbols data) := by
    unfold extract_symbols
    exact scanStringsAux_nodup data _ _ _ (scanNamesAux_nodup data _ _ _
      ⟨List.nodup_nil, List.nodup_nil, List.nodup_nil, List.nodup_nil, List.nodup_nil⟩)
  exact ⟨h.1, h.2.1, h.2.2.1, h.2.2.2.1, h.2.2.2.2, by decide⟩

/-- C1: for every accepted name record (length in (0, 64), record
fitting in the buffer, payload bytes all in [0x20, 0x7F)), the decoded
name is classified by flag: 0x40 and 0x04 insert it into `subs` (if
absent), 0x08 inserts it into `types` (if absent) and touches neither
`subs` nor the variables, and any other flag inserts it into the
variables exactly when it is longer than one character and matches
`^[A-Za-z_][A-Za-z0-9_$.%&#!]*$`. -/
theorem thm_C1_flag_classification (data : List Nat) (pos : Nat) (s : Symbols)
    (h0 : 0 < data.getD (pos + 1) 0) (h1 : data.getD (pos + 1) 0 < 64)
    (h2 : pos + 2 + data.getD (pos + 1) 0 ≤ data.length)
    (h3 : ∀ b ∈ nameBytesAt data pos, 32 ≤ b ∧ b < 127) :
    (data.getD pos 0 = 0x40 ∨ data.getD pos 0 = 0x04 →
      (nameStep data pos s).2 =
        { s with subs := if decodeAscii (nameBytesAt data pos) ∈ s.subs then s.subs
            else s.subs ++ [decodeAscii (nameBytesAt data pos)] }) ∧
    (data.getD pos 0 = 0x08 →
      (nameStep data pos s).2 =
        { s with types := if decodeAscii (nameBytesAt data pos) ∈ s.types then s.types
            else s.types ++ [decodeAscii (nameBytesAt data pos)] }) ∧
    (data.getD pos 0 ≠ 0x40 ∧ data.getD pos 0 ≠ 0x04 ∧ data.getD pos 0 ≠ 0x08 →
      (nameStep data pos s).2 =
        { s with vars :=
            if decodeAscii (nameBytesAt data pos) ∉ s.vars ∧
                1 < (decodeAscii (nameBytesAt data pos)).length ∧
                matchVarIdent (decodeAscii (nameBytesAt data pos)) then
              s.vars ++ [decodeAscii (nameBytesAt data pos)]
            else s.vars }) := by
  have hok : nameRecordOK data pos = true := by
    unfold nameRecordOK printableByte
    simp only [Bool.and_eq_true, decide_eq_true_eq, List.all_eq_true]
    exact ⟨⟨h0, h1, h2⟩, h3⟩
  have hstep : (nameStep data pos s).2 =
      classifyName (data.getD pos 0) (decodeAscii (nameBytesAt data pos)) s := by
    unfold nameStep
    rw [if_pos hok]
  refine ⟨?_, ?_, ?_⟩
  · rintro (hf | hf) <;>
    · rw [hstep]
      unfold classifyName
      rw [hf]
      norm_num
      split_ifs <;> rfl
  · intro hf
    rw [hstep]
    unfold classifyName
    rw [hf]
    norm_num
    split_ifs <;> rfl
  · intro hf
    rw [hstep]
    unfold classifyName
    rw [if_neg hf.1, if_neg hf.2.2, if_neg hf.2.1]
    split_ifs with hm <;> rfl

theorem thm_C1_witness :
    (∀ b ∈ nameBytesAt [0x08, 6, 80, 111, 105, 110, 116, 84] 0, 32 ≤ b ∧ b < 127) ∧
      (nameStep [0x08, 6, 80, 111, 105, 110, 116, 84] 0 emptySymbols).2 =
        { emptySymbols with types := ["PointT"] } := by
  refine ⟨by decide, ?_⟩
  rw [(thm_C1_flag_classification [0x08, 6, 80, 111, 105, 110, 116, 84] 0 emptySymbols
    (by decide) (by decide) (by decide) (by decide)).2.1 (by decide)]
  decide

/-- C7: the string-literal scanner accepts a candidate only when its
printable count strictly exceeds 0.9 of its length (rendered exactly as
`10 * printable_count > 9 * length`, which coincides with the source's
IEEE comparison on the whole accepted length range); a candidate whose
printable count is exactly 0.9 of its length is rejected and the symbol
sets are left unchanged. -/
theorem thm_C7_ratio_strict (data : List Nat) (pos : Nat) (s : Symbols) :
    (10 * (((data.drop (pos + 1)).take (data.getD pos 0)).filter printableByte).length =
        9 * data.getD pos 0 →
      stringStep data pos s = s) ∧
    (stringStep data pos s ≠ s →
      9 * data.getD pos 0 <
        10 * (((data.drop (pos + 1)).take (data.getD pos 0)).filter printableByte).length) := by
  constructor
  · intro h
    unfold stringStep
    split_ifs <;> first | rfl | omega
  · intro hne
    by_contra hno
    apply hne
    unfold stringStep
    split_ifs <;> rfl

theorem thm_C7_witness :
    10 * ((([20, 65, 65, 65, 65, 65, 65, 65, 65, 65, 65, 65, 65, 65, 65, 65, 65, 65, 65,
        0, 0].drop 1).take ([20, 65, 65, 65, 65, 65, 65, 65, 65, 65, 65, 65, 65, 65, 65,
        65, 65, 65, 65, 0, 0].getD 0 0)).filter printableByte).length =
      9 * [20, 65, 65, 65, 65, 65, 65, 65, 65, 65, 65, 65, 65, 65, 65, 65, 65, 65, 65,
        0, 0].getD 0 0 ∧
    stringStep [20, 65, 65, 65, 65, 65, 65, 65, 65, 65, 65, 65, 65, 65, 65, 65, 65, 65,
        65, 0, 0] 0 emptySymbols = emptySymbols :=
  ⟨by decide, (thm_C7_ratio_strict [20, 65, 65, 65, 65, 65, 65, 65, 65, 65, 65, 65, 65,
    65, 65, 65, 65, 65, 65, 0, 0] 0 emptySymbols).1 (by decide)⟩

/-- C8 (counterexample): with a path that exists but cannot be opened
(`open` raises) followed by a valid path, the batch stops at the failing
path with an uncaught exception and the second path is never processed —
refuting the claim that every unreadable file is reported and skipped
and all remaining paths fully processed. -/
theorem thm_C8_counterexample :
    (processFiles
        (fun p => if p = "a" then FileState.unreadable else FileState.content [0xFC, 0x00])
        ["a", "b"]).exc ≠ none ∧
      "=== b ===" ∉ (processFiles
        (fun p => if p = "a" then FileState.unreadable else FileState.content [0xFC, 0x00])
        ["a", "b"]).out := by
  decide

/-- C8 (amended): as long as no argument names an existing-but-unreadable
path, no error in one file's processing affects any other: every path
contributes its own standard-output block and standard-error line
independently, in argument order, and the batch runs to completion with
no uncaught exception.  (Missing and malformed files are reported and
skipped; a failing `open` on an existing path, however, raises an
uncaught exception that aborts the remaining arguments.) -/
theorem thm_C8_isolation (fs : String → FileState) (paths : List String)
    (h : ∀ p ∈ paths, fs p ≠ FileState.unreadable) :
    processFiles fs paths =
      ⟨(paths.map (fileOut fs)).flatten, paths.filterMap (fileErr fs), none⟩ := by
  induction paths with
  | nil => rfl
  | cons p rest ih =>
    have hp : fs p ≠ FileState.unreadable := h p (by simp)
    have ihr := ih (fun q hq => h q (by simp [hq]))
    unfold processFiles
    cases hfp : fs p with
    | missing =>
      rw [ihr]
      simp [fileOut, fileErr, hfp]
    | unreadable => exact absurd hfp hp
    | content data =>
      rcases ha : analyze_file data with ⟨so, eo⟩
      cases eo with
      | none =>
        rw [ihr]
        simp [fileOut, fileErr, hfp, ha]
      | some e =>
        rw [ihr]
        simp [fileOut, fileErr, hfp, ha]

theorem thm_C8_witness :
    processFiles (fun _ => FileState.content [0xFC, 0x00]) ["x", "y"] =
      ⟨((["x", "y"].map (fileOut (fun _ => FileState.content [0xFC, 0x00]))).flatten),
        ["x", "y"].filterMap (fileErr (fun _ => FileState.content [0xFC, 0x00])), none⟩ :=
  thm_C8_isolation (fun _ => FileState.content [0xFC, 0x00]) ["x", "y"] (by decide)

/-- C9: the reporter displays `subs`, `types` and the filtered variables
in sorted order (the displayed lists are `Sorted (· ≤ ·)`), while the
strings section is never sorted: it is the first 10 of the
longer-than-10 strings in insertion order, each printed quoted and cut
to its first 50 characters, with an ellipsis appended exactly when the
string is longer than 50.  The two concrete blocks at the end show the
sort applied to `subs` (`["B", "A"]` prints as A, B) and not applied to
`strings` (insertion order preserved although `B… > A…`). -/
theorem thm_C9_reporter (syms : Symbols) (v : String) :
    List.Sorted (· ≤ ·) (sortS syms.subs) ∧
    List.Sorted (· ≤ ·) (sortS syms.types) ∧
    List.Sorted (· ≤ ·) ((sortS (syms.vars.filter (fun x => 3 < x.length))).take 30) ∧
    (50 < v.length → fmtStringLine v = "    \"" ++ strTake v 50 ++ "..." ++ "\"") ∧
    (v.length ≤ 50 → fmtStringLine v = "    \"" ++ v ++ "\"") ∧
    stringsBlock ⟨[], [], [], [], ["BBBBBBBBBBBB", "AAAAAAAAAAAA"]⟩ =
      ["  String literals (sample):", "    \"BBBBBBBBBBBB\"", "    \"AAAAAAAAAAAA\""] ∧
    subsBlock ⟨["B", "A"], [], [], [], []⟩ = ["  SUBs/FUNCTIONs (2):", "    A", "    B"] := by
  refine ⟨List.sorted_insertionSort _ _, List.sorted_insertionSort _ _,
    (List.sorted_insertionSort _ _).sublist (List.take_sublist 30 _), ?_, ?_, by decide, ?_⟩
  · intro hlen
    unfold fmtStringLine
    rw [if_pos hlen]
  · intro hlen
    unfold fmtStringLine
    rw [if_neg (Nat.not_lt.mpr hlen)]
    have ht : strTake v 50 = v := by
      unfold strTake
      cases v with
      | mk l =>
        exact congrArg String.mk (List.take_of_length_le (by simpa using hlen))
    rw [ht]
    simp
  · have hs : sortS ["B", "A"] = ["A", "B"] := by
      unfold sortS
      simp [List.insertionSort, List.orderedInsert]
      decide
    unfold subsBlock
    rw [if_pos (by decide), hs]
    decide

theorem thm_C9_witness :
    50 < ("123456789012345678901234567890123456789012345678901234567890" : String).length ∧
      fmtStringLine "123456789012345678901234567890123456789012345678901234567890" =
        "    \"" ++
          strTake "123456789012345678901234567890123456789012345678901234567890" 50 ++
          "..." ++ "\"" :=
  ⟨by decide, (thm_C9_reporter emptySymbols
    "123456789012345678901234567890123456789012345678901234567890").2.2.2.1 (by decide)⟩
